import Mathlib

/-!
Verification of the opensmtpd-filter-mimetype MIME whitelist filter.

Go strings are modelled as lists of byte values (`List Nat`, each < 256 for
meaningful inputs).  A buffered message is a list of lines (`List (List Nat)`),
exactly as the filter stores it: the control-channel scanner splits stdin on
newlines, so a stored line never contains a newline byte.  The embedding
follows src/cmd/mimefilter/main.go (the wired engine) and
src/internal/mail/checker.go (the variant that inspects single-part bodies).
Go standard-library collaborators (net/mail header parsing, mime media-type
parsing, mime/multipart walking, net/http content sniffing, base64 and
quoted-printable stream decoding) are modelled to the extent the filter
exercises them; simplifications are noted where they occur.
-/

/-- Byte list of an ASCII string literal (builder for concrete inputs). -/
def bs (s : String) : List Nat := s.data.map Char.toNat

/-- ASCII lower-casing of one byte, as strings.ToLower acts on ASCII data. -/
def toLowerB (c : Nat) : Nat := if 65 ≤ c ∧ c ≤ 90 then c + 32 else c

/-- strings.ToLower restricted to ASCII byte strings. -/
def toLower (l : List Nat) : List Nat := l.map toLowerB

/-- Whitespace test used by strings.TrimSpace (ASCII range). -/
def isSpaceB (c : Nat) : Bool := c = 32 || c = 9 || c = 10 || c = 11 || c = 12 || c = 13

/-- strings.TrimSpace on byte strings. -/
def trimSpace (l : List Nat) : List Nat :=
  ((l.dropWhile isSpaceB).reverse.dropWhile isSpaceB).reverse

/-- cleanString from src/cmd/mimefilter/main.go: every byte outside printable
ASCII 0x20..0x7E, and the protocol delimiter 0x7C, is replaced by 0x3F. -/
def cleanString : List Nat → List Nat
  | [] => []
  | c :: rest => (if 32 ≤ c ∧ c ≤ 126 ∧ c ≠ 124 then c else 63) :: cleanString rest

theorem cleanString_map (s : List Nat) :
    cleanString s = s.map (fun c => if 32 ≤ c ∧ c ≤ 126 ∧ c ≠ 124 then c else 63) := by
  induction s with
  | nil => rfl
  | cons c rest ih => simp [cleanString, ih]

theorem cleanString_append (a b : List Nat) :
    cleanString (a ++ b) = cleanString a ++ cleanString b := by
  simp [cleanString_map]

theorem cleanString_idem (s : List Nat) : cleanString (cleanString s) = cleanString s := by
  induction s with
  | nil => rfl
  | cons c rest ih =>
    simp only [cleanString]
    by_cases h : 32 ≤ c ∧ c ≤ 126 ∧ c ≠ 124
    · simp [h, ih]
    · simp [h, ih]

/-- Claim C9: cleanString is idempotent, length-preserving, its output stays in
printable ASCII 0x20..0x7E and never contains the field delimiter 0x7C, and
every disallowed byte is replaced pointwise by 0x3F. -/
theorem claim_C9 (s : List Nat) :
    cleanString (cleanString s) = cleanString s ∧
    (cleanString s).length = s.length ∧
    ((cleanString s).all fun c => decide (32 ≤ c) && decide (c ≤ 126) && (c != 124)) = true ∧
    cleanString s = s.map (fun c => if 32 ≤ c ∧ c ≤ 126 ∧ c ≠ 124 then c else 63) := by
  refine ⟨cleanString_idem s, ?_, ?_, cleanString_map s⟩
  · simp [cleanString_map]
  · simp only [cleanString_map, List.all_map, List.all_eq_true]
    intro c _
    by_cases h : 32 ≤ c ∧ c ≤ 126 ∧ c ≠ 124
    · simp only [Function.comp, if_pos h]
      simp [h.1, h.2.1, h.2.2]
    · simp only [Function.comp, if_neg h]
      decide

/-- Split a byte list at the first occurrence of a separator byte. -/
def splitFirst : List Nat → Nat → Option (List Nat × List Nat)
  | [], _ => none
  | c :: rest, sep =>
    if c = sep then some ([], rest)
    else
      match splitFirst rest sep with
      | some (a, b) => some (c :: a, b)
      | none => none

/-- One parsed header block: association list of (key, value) byte strings. -/
abbrev Headers := List (List Nat × List Nat)

/-- Worker for parseHeaders; acc holds the headers read so far, reversed. -/
def parseHeadersAux : Headers → List (List Nat) → Option (Headers × List (List Nat))
  | _, [] => none
  | acc, l :: rest =>
    if l = [] then some (acc.reverse, rest)
    else if l.head? = some 32 ∨ l.head? = some 9 then
      match acc with
      | [] => none
      | (k, v) :: acc2 => parseHeadersAux ((k, v ++ 32 :: trimSpace l) :: acc2) rest
    else
      match splitFirst l 58 with
      | none => none
      | some (k, v) =>
        if k = [] then none
        else parseHeadersAux ((k, v.dropWhile (fun c => c = 32 || c = 9)) :: acc) rest

/-- net/textproto ReadMIMEHeader at line granularity, as used by
net/mail.ReadMessage and mime/multipart: header lines run until the first
empty line; a continuation line (leading space or tab) folds into the
previous value; a non-empty line without a colon, a leading continuation, or
end of input before the empty line is a parse error (`none`).  Returns the
headers and the remaining (body) lines. -/
def parseHeaders (lines : List (List Nat)) : Option (Headers × List (List Nat)) :=
  parseHeadersAux [] lines

/-- Header.Get: first header whose key matches case-insensitively (keys are
canonicalised in Go; byte-wise lower-case comparison models that); missing
headers yield the empty string. -/
def getHeader : Headers → List Nat → List Nat
  | [], _ => []
  | (k, v) :: rest, key => if toLower k = key then v else getHeader rest key

/-- RFC 1521 token bytes accepted by mime.ParseMediaType.  0x2F is not a
token byte, so subtypes containing a second slash are rejected. -/
def isTokenChar (c : Nat) : Bool :=
  (48 ≤ c && c ≤ 57) || (65 ≤ c && c ≤ 90) || (97 ≤ c && c ≤ 122) ||
  c = 33 || c = 35 || c = 36 || c = 37 || c = 38 || c = 39 || c = 42 ||
  c = 43 || c = 45 || c = 46 || c = 94 || c = 95 || c = 96 || c = 124 || c = 126

/-- Validity of the media-type component: `token` or `token/token`. -/
def mediaTypeOk (mt : List Nat) : Bool :=
  match splitFirst mt 47 with
  | none => !mt.isEmpty && mt.all isTokenChar
  | some (maj, minr) =>
    !maj.isEmpty && maj.all isTokenChar && !minr.isEmpty && minr.all isTokenChar

/-- A parameter value: a double-quoted string (backslash escapes and quoted
semicolons are not modelled; no input here uses them) or a bare token. -/
def paramValue (v : List Nat) : Option (List Nat) :=
  match v with
  | 34 :: rest =>
    match splitFirst rest 34 with
    | some (content, _) => some content
    | none => none
  | _ => if !v.isEmpty && v.all isTokenChar then some v else none

/-- Parameter chunks after the media type, already split on semicolons. -/
def parseParams : List (List Nat) → Option (List (List Nat × List Nat))
  | [] => some []
  | chunk :: rest =>
    let c := trimSpace chunk
    if c.isEmpty then (if rest.isEmpty then some [] else none)
    else
      match splitFirst c 61 with
      | none => none
      | some (k, v) =>
        let key := toLower (trimSpace k)
        if key.isEmpty || !key.all isTokenChar then none
        else
          match paramValue (trimSpace v) with
          | none => none
          | some pv =>
            match parseParams rest with
            | none => none
            | some ps => some ((key, pv) :: ps)

/-- mime.ParseMediaType: media type lower-cased and validated, parameters
parsed; any failure (including a failing parameter) is an error (`none`),
which every caller in the filter treats the same way as Go treats err != nil. -/
def parseMediaType (v : List Nat) : Option (List Nat × List (List Nat × List Nat)) :=
  match v.splitOn 59 with
  | [] => none
  | base :: chunks =>
    let mt := toLower (trimSpace base)
    if mediaTypeOk mt then
      match parseParams chunks with
      | none => none
      | some ps => some (mt, ps)
    else none

/-- Whitespace bytes skipped before sniffing ("\t\n\x0c\r " in net/http). -/
def isSniffWS (c : Nat) : Bool := c = 9 || c = 10 || c = 12 || c = 13 || c = 32

/-- Bytes that disqualify the text/plain heuristic in net/http sniffing. -/
def isBinaryByte (c : Nat) : Bool :=
  c ≤ 8 || c = 11 || (14 ≤ c && c ≤ 26) || (28 ≤ c && c ≤ 31)

/-- net/http DetectContentType restricted to the signature families this
inputs of this filter exercise (PDF, PostScript, GIF, PNG, JPEG, BMP, MS
executable, gzip, zip, RAR), with the text/binary heuristic and the
application/octet-stream fallback; the HTML/XML/BOM table entries, which can
only ever produce other `text/*` results, are not modelled. -/
def detectContentType (data0 : List Nat) : List Nat :=
  let data := data0.take 512
  if (bs ("%PDF-")).isPrefixOf data then bs ("application/pdf")
  else if (bs ("%!PS-Adobe-")).isPrefixOf data then bs ("application/postscript")
  else if (bs ("GIF87a")).isPrefixOf data || (bs ("GIF89a")).isPrefixOf data then bs ("image/gif")
  else if ([137, 80, 78, 71, 13, 10, 26, 10]).isPrefixOf data then bs ("image/png")
  else if ([255, 216, 255]).isPrefixOf data then bs ("image/jpeg")
  else if (bs ("BM")).isPrefixOf data then bs ("image/bmp")
  else if (bs ("MZ")).isPrefixOf data then bs ("application/x-msdownload")
  else if ([31, 139, 8]).isPrefixOf data then bs ("application/x-gzip")
  else if ([80, 75, 3, 4]).isPrefixOf data then bs ("application/zip")
  else if (bs ("Rar!") ++ [26, 7, 0]).isPrefixOf data then bs ("application/x-rar-compressed")
  else if (data.dropWhile isSniffWS).all (fun c => !isBinaryByte c) then bs ("text/plain; charset=utf-8")
  else bs ("application/octet-stream")

/-- Value of one standard-alphabet base64 digit. -/
def b64Val (c : Nat) : Option Nat :=
  if 65 ≤ c ∧ c ≤ 90 then some (c - 65)
  else if 97 ≤ c ∧ c ≤ 122 then some (c - 97 + 26)
  else if 48 ≤ c ∧ c ≤ 57 then some (c - 48 + 52)
  else if c = 43 then some 62
  else if c = 47 then some 63
  else none

/-- Decode whole 4-digit base64 quanta; a corrupt digit, bad padding or an
incomplete final quantum ends decoding, mirroring a streaming
base64.NewDecoder that has yielded its successfully decoded output before
reporting the error to io.ReadFull. -/
def b64Groups : List Nat → List Nat
  | c1 :: c2 :: c3 :: c4 :: rest =>
    match b64Val c1, b64Val c2 with
    | some v1, some v2 =>
      if c3 = 61 then
        if c4 = 61 then [v1 * 4 + v2 / 16] else []
      else
        match b64Val c3 with
        | some v3 =>
          if c4 = 61 then [v1 * 4 + v2 / 16, v2 % 16 * 16 + v3 / 4]
          else
            match b64Val c4 with
            | some v4 => (v1 * 4 + v2 / 16) :: (v2 % 16 * 16 + v3 / 4) :: (v3 % 4 * 64 + v4) :: b64Groups rest
            | none => []
        | none => []
    | _, _ => []
  | _ => []

/-- base64.NewDecoder(base64.StdEncoding, _): newline bytes are ignored by
the stream decoder; everything else is decoded in 4-digit quanta. -/
def base64Decode (l : List Nat) : List Nat :=
  b64Groups (l.filter fun c => c != 10 && c != 13)

/-- Value of one hex digit (both cases), for quoted-printable escapes. -/
def hexVal (c : Nat) : Option Nat :=
  if 48 ≤ c ∧ c ≤ 57 then some (c - 48)
  else if 65 ≤ c ∧ c ≤ 70 then some (c - 55)
  else if 97 ≤ c ∧ c ≤ 102 then some (c - 87)
  else none

/-- quotedprintable.NewReader: =XX escapes decode to one byte, a = before a
line break is a soft break, a malformed escape ends decoding (the streaming
reader has already yielded the preceding bytes); the trailing-space
trimming at hard line breaks is not modelled (no input here exercises it). -/
def qpDecode : List Nat → List Nat
  | 61 :: 13 :: 10 :: rest => qpDecode rest
  | 61 :: 10 :: rest => qpDecode rest
  | 61 :: a :: b :: rest =>
    match hexVal a, hexVal b with
    | some x, some y => (x * 16 + y) :: qpDecode rest
    | _, _ => []
  | 61 :: _ => []
  | c :: rest => c :: qpDecode rest
  | [] => []

/-- The transfer-decoding switch of checkMailContent (and wrapEncoding in
internal/mimefilter/mimecheck): the declared Content-Transfer-Encoding is
trimmed and lower-cased; base64 and quoted-printable select the streaming
decoders and anything else (7bit, 8bit, binary, empty, unknown) is identity. -/
def wrapEncoding (encHeader : List Nat) (content : List Nat) : List Nat :=
  let e := toLower (trimSpace encHeader)
  if e = bs ("base64") then base64Decode content
  else if e = bs ("quoted-printable") then qpDecode content
  else content

/-- filepath.Base for slash-separated names, as applied by Part.FileName to a
non-empty filename parameter. -/
def basename (f : List Nat) : List Nat :=
  let g := (f.reverse.dropWhile fun c => c == 47).reverse
  if g.isEmpty then [47]
  else (g.reverse.takeWhile fun c => c != 47).reverse

/-- Part.FileName: the filename parameter of Content-Disposition, passed
through filepath.Base when non-empty; a missing or unparsable header yields
the empty name.  The subsequent mime.WordDecoder.DecodeHeader call in the
filter returns its input unchanged for names without RFC 2047 encoded-words
(none of the claims involve encoded-words), so it is the identity here. -/
def partFileName (phdrs : Headers) : List Nat :=
  match parseMediaType (getHeader phdrs (bs ("content-disposition"))) with
  | some (_, ps) =>
    let f := (List.lookup (bs ("filename")) ps).getD []
    if f.isEmpty then [] else basename f
  | none => []

/-- Drop a final CR, as boundary matching tolerates CRLF line ends. -/
def dropCR (l : List Nat) : List Nat :=
  match l.getLast? with
  | some 13 => l.dropLast
  | _ => l

/-- Strip an exact byte-list prefix. -/
def stripPre : List Nat → List Nat → Option (List Nat)
  | [], l => some l
  | _, [] => none
  | p :: ps, c :: cs => if p = c then stripPre ps cs else none

/-- Linear whitespace allowed after a boundary on its line. -/
def isLWSP (c : Nat) : Bool := c = 32 || c = 9

/-- A boundary delimiter line: "--" ++ boundary plus optional trailing
whitespace (multipart.Reader.isBoundaryDelimiterLine). -/
def isDelim (boundary l : List Nat) : Bool :=
  match stripPre (45 :: 45 :: boundary) (dropCR l) with
  | some rest => rest.all isLWSP
  | none => false

/-- The closing boundary line: "--" ++ boundary ++ "--" plus optional
trailing whitespace (multipart.Reader.isFinalBoundary). -/
def isClose (boundary l : List Nat) : Bool :=
  match stripPre (45 :: 45 :: boundary ++ [45, 45]) (dropCR l) with
  | some rest => rest.all isLWSP
  | none => false

/-- Collect the lines of the current part up to the next delimiter; a closing
boundary ends the walk and lines after it (the epilogue) are ignored; running
out of input closes the current part (the walker then reports an error that
checkMailContent treats as the end of the walk). -/
def splitFrom (boundary : List Nat) (cur : List (List Nat)) : List (List Nat) → List (List (List Nat))
  | [] => [cur]
  | l :: rest =>
    if isClose boundary l then [cur]
    else if isDelim boundary l then cur :: splitFrom boundary [] rest
    else splitFrom boundary (cur ++ [l]) rest

/-- The framing of the multipart walker: skip the preamble until the first
delimiter line, then cut the body into raw part blocks (header lines, blank
separator, content lines).  The newline preceding each boundary line belongs
to the boundary, so the content of a part is its lines interleaved with single
newlines. -/
def splitBlocks (boundary : List Nat) : List (List Nat) → List (List (List Nat))
  | [] => []
  | l :: rest =>
    if isClose boundary l then []
    else if isDelim boundary l then splitFrom boundary [] rest
    else splitBlocks boundary rest

/-- The rejection reason built by checkMailContent for a forbidden part. -/
def mkReason (m f : List Nat) : List Nat :=
  bs ("Forbidden MIME type: ") ++ cleanString m ++ bs (" (File: ") ++ cleanString f ++ bs (")")

/-- The chunked deep-read loop guarded by maxInspectBytes: read up to 4096
bytes at a time from the decoded stream until the cap or the stream is
exhausted; returns how many bytes it consumed. -/
def drainLoop (stream : List Nat) (remaining : Nat) : Nat :=
  if remaining = 0 then 0
  else
    let m := min (min 4096 remaining) stream.length
    if h : m = 0 then 0
    else
      have hle : m ≤ remaining := le_trans (min_le_left _ _) (min_le_right _ _)
      have : remaining - m < remaining :=
        Nat.sub_lt (Nat.lt_of_lt_of_le (Nat.pos_of_ne_zero h) hle) (Nat.pos_of_ne_zero h)
      m + drainLoop (stream.drop m) (remaining - m)
termination_by remaining

/-- Result of handling one multipart part in checkMailContent: an optional
rejection reason, plus how many decoded bytes the reader of the part yielded
(header window plus deep-read drain); the count witnesses the reads the Go
code performs but never feeds into any verdict. -/
structure PartRes where
  reason : Option (List Nat)
  consumed : Nat

/-- The body of the part loop in checkMailContent (src/cmd/mimefilter/main.go
lines 352-439) for one raw part block: parse the part header (failure makes
a NextPart error of the walker, returned as none); decode the filename; wrap
the content stream in the declared transfer decoding; read the header window
(headerInspectSize, defaulting to 512 when unset); skip artifact parts that
yielded nothing and have no filename; sniff, normalise away parameters, and
enforce the whitelist for parts that have a filename or are not text/*;
otherwise drain up to maxInspectBytes from the decoded stream. -/
def processPart (allowed : List (List Nat)) (hsz maxI : Nat) (phdrs : Headers)
    (contentLines : List (List Nat)) : PartRes :=
  let filename := partFileName phdrs
  let content := List.intercalate [10] contentLines
  let decoded := wrapEncoding (getHeader phdrs (bs ("content-transfer-encoding"))) content
  let h := if hsz = 0 then 512 else hsz
  let headB := decoded.take h
  let n := headB.length
  if n = 0 ∧ filename.isEmpty then ⟨none, 0⟩
  else
    let d := detectContentType headB
    let realMime := match parseMediaType d with | some (mt, _) => mt | none => d
    if (!filename.isEmpty || !(bs ("text/")).isPrefixOf realMime) &&
       !allowed.contains (toLower realMime) then
      ⟨some (mkReason realMime filename), n⟩
    else
      ⟨none, n + (if n < maxI then drainLoop (decoded.drop n) (maxI - n) else 0)⟩

/-- One walker step plus loop body: parsing the part header is NextPart
(whose failure is the walker error), then the part is processed. -/
def processBlock (allowed : List (List Nat)) (hsz maxI : Nat) (blk : List (List Nat)) :
    Option PartRes :=
  (parseHeaders blk).map fun p => processPart allowed hsz maxI p.fst p.snd

/-- Fold of the part loop over the blocks of the walker: a part whose header fails
to parse breaks out of the loop (the remaining parts are never visited and
the accumulated verdict is Accept), a violating part returns its reason
immediately, a benign part continues.  The second component accumulates the
bytes consumed from part readers. -/
def checkBlocks (allowed : List (List Nat)) (hsz maxI : Nat) :
    List (List (List Nat)) → List Nat × Nat
  | [] => ([], 0)
  | b :: rest =>
    match processBlock allowed hsz maxI b with
    | none => ([], 0)
    | some pr =>
      match pr.reason with
      | some r => (r, pr.consumed)
      | none =>
        let t := checkBlocks allowed hsz maxI rest
        (t.fst, pr.consumed + t.snd)

/-- checkMailContent from src/cmd/mimefilter/main.go: parse the top-level
header block (failure accepts), parse Content-Type (failure or a
non-multipart type accepts), then walk the multipart body with the boundary
parameter and fold the part loop.  The empty reason is Accept. -/
def checkMailContent (lines : List (List Nat)) (allowed : List (List Nat))
    (hsz maxI : Nat) : List Nat :=
  match parseHeaders lines with
  | none => []
  | some (hdrs, body) =>
    match parseMediaType (getHeader hdrs (bs ("content-type"))) with
    | none => []
    | some (mt, ps) =>
      if !(bs ("multipart/")).isPrefixOf mt then []
      else
        let boundary := (List.lookup (bs ("boundary")) ps).getD []
        (checkBlocks allowed hsz maxI (splitBlocks boundary body)).fst

/-- strings.Join(lines, "\n"). -/
def joinLines (lines : List (List Nat)) : List Nat := List.intercalate [10] lines

/-- The effective top-level media type in internal/mail/checker.go: the
parsed Content-Type, or text/plain when the header is missing, empty or
unparsable. -/
def effMediaType (hdrs : Headers) : List Nat :=
  match parseMediaType (getHeader hdrs (bs ("content-type"))) with
  | some (mt, _) => if mt.isEmpty then bs ("text/plain") else mt
  | none => bs ("text/plain")

/-- The part loop body of internal/mail/checker.go (CheckMailPart lines
47-84) for one raw block: like the main.go loop but with no empty-part skip,
no default for headerInspectSize and no deep-read drain; none means the
header of the part failed to parse.  some none is a benign part, some (some r) a
violation. -/
def mailProcessBlock (allowed : List (List Nat)) (hsz : Nat) (blk : List (List Nat)) :
    Option (Option (List Nat)) :=
  match parseHeaders blk with
  | none => none
  | some (phdrs, contentLines) =>
    let filename := partFileName phdrs
    let content := List.intercalate [10] contentLines
    let decoded := wrapEncoding (getHeader phdrs (bs ("content-transfer-encoding"))) content
    let headB := decoded.take hsz
    let d := detectContentType headB
    let realMime := match parseMediaType d with | some (mt, _) => mt | none => d
    if (!filename.isEmpty || !(bs ("text/")).isPrefixOf realMime) &&
       !allowed.contains (toLower realMime) then
      some (some (mkReason realMime filename))
    else
      some none

/-- The part loop of internal/mail/checker.go: a malformed part is skipped and
walking continues with the next part (`continue`), unlike the break in main.go for `break`. -/
def mailCheckBlocks (allowed : List (List Nat)) (hsz : Nat) :
    List (List (List Nat)) → List Nat
  | [] => []
  | b :: rest =>
    match mailProcessBlock allowed hsz b with
    | none => mailCheckBlocks allowed hsz rest
    | some (some r) => r
    | some none => mailCheckBlocks allowed hsz rest

/-- CheckMailPart from src/internal/mail/checker.go: an all-whitespace mail
is rejected as "Empty mail" and an unparsable top-level header as "Malformed
mail headers"; a non-multipart message has up to headerInspectSize bytes of
its body read and sniffed, and is rejected when the sniffed type is neither
whitelisted (compared lower-cased, on the full sniffed string) nor a text/*
type; a multipart message is walked part by part. -/
def CheckMailPart (lines : List (List Nat)) (allowed : List (List Nat)) (hsz : Nat) :
    List Nat :=
  if (trimSpace (joinLines lines)).isEmpty then bs ("Empty mail")
  else
    match parseHeaders lines with
    | none => bs ("Malformed mail headers")
    | some (hdrs, rest) =>
      let mt := effMediaType hdrs
      if !(bs ("multipart/")).isPrefixOf mt then
        let d := detectContentType ((List.intercalate [10] rest).take hsz)
        if !allowed.contains (toLower d) && !(bs ("text/")).isPrefixOf d then
          bs ("Forbidden MIME type: ") ++ cleanString d
        else []
      else
        let ps := match parseMediaType (getHeader hdrs (bs ("content-type"))) with
          | some (_, ps) => ps
          | none => []
        mailCheckBlocks allowed hsz (splitBlocks ((List.lookup (bs ("boundary")) ps).getD []) rest)

/-- The session store: the sessions map, keyed by session id.  The value is
the buffered message lines of the session. -/
def Store := String → Option (List (List Nat))

/-- The empty session store. -/
def emptyStore : Store := fun _ => none

/-- Map write, sessions[sid] = v. -/
def setStore (st : Store) (sid : String) (v : List (List Nat)) : Store :=
  fun x => if x = sid then some v else st x

/-- Map delete, delete(sessions, sid). -/
def delStore (st : Store) (sid : String) : Store :=
  fun x => if x = sid then none else st x

/-- One protocol reply produced via produceOutput: a filter-dataline with a
payload, or a filter-result with a result body. -/
inductive Reply where
  | dataline (sid token : String) (payload : List Nat)
  | result (sid token : String) (body : List Nat)
deriving DecidableEq

/-- handleDisconnect: remove the session from the store. -/
def handleDisconnect (st : Store) (sid : String) : Store := delStore st sid

/-- handleDataLine from src/cmd/mimefilter/main.go: get or create the
session; buffer the payload unless it is the bare end-of-data marker ".",
stripping one leading dot from a payload that starts with ".."; echo the
original payload back as a filter-dataline reply. -/
def handleDataLine (st : Store) (sid token : String) (line : List Nat) :
    Store × Reply :=
  let msg := (st sid).getD []
  let msg2 :=
    if line = [46] then msg
    else if ([46, 46]).isPrefixOf line then msg ++ [line.drop 1]
    else msg ++ [line]
  (setStore st sid msg2, Reply.dataline sid token line)

/-- handleCommit from src/cmd/mimefilter/main.go: an unknown session id gets
a single proceed result; otherwise the buffered message is inspected, an
Accept replays every buffered line, the end-of-data marker and a proceed
result, a Reject emits one result carrying the 550 policy-violation status
and the reason, and in both inspected branches the session is destroyed. -/
def handleCommit (st : Store) (allowed : List (List Nat)) (hsz maxI : Nat)
    (sid token : String) : Store × List Reply :=
  match st sid with
  | none => (st, [Reply.result sid token (bs ("proceed"))])
  | some msg =>
    let reason := checkMailContent msg allowed hsz maxI
    if reason = [] then
      (handleDisconnect st sid,
       msg.map (fun l => Reply.dataline sid token l) ++
         [Reply.dataline sid token [46], Reply.result sid token (bs ("proceed"))])
    else
      (handleDisconnect st sid,
       [Reply.result sid token (bs ("reject|550 Policy violation: ") ++ reason)])

/-- The reason component of processing one part; used to phrase first-violation
and drain-independence statements. -/
def partVerdict (allowed : List (List Nat)) (hsz maxI : Nat) (blk : List (List Nat)) :
    Option (Option (List Nat)) :=
  (processBlock allowed hsz maxI blk).map PartRes.reason

theorem preExists {p l : List Nat} (h : p.isPrefixOf l = true) : ∃ t, l = p ++ t := by
  induction p generalizing l with
  | nil => exact ⟨l, rfl⟩
  | cons a as ih =>
    cases l with
    | nil => simp at h
    | cons b rest =>
      simp only [List.isPrefixOf, Bool.and_eq_true, beq_iff_eq] at h
      obtain ⟨t, ht⟩ := ih h.2
      exact ⟨t, by rw [h.1, ht]; rfl⟩

theorem mkReason_ne_nil (a b : List Nat) : mkReason a b ≠ [] := by
  intro h
  have := congrArg List.length h
  simp [mkReason, bs] at this

theorem cleanString_mkReason (a b : List Nat) :
    cleanString (mkReason a b) = mkReason a b := by
  have h1 : cleanString (bs ("Forbidden MIME type: ")) = bs ("Forbidden MIME type: ") := by decide
  have h2 : cleanString (bs (" (File: ")) = bs (" (File: ") := by decide
  have h3 : cleanString (bs (")")) = bs (")") := by decide
  simp [mkReason, cleanString_append, cleanString_idem, h1, h2, h3]

theorem processBlock_of_malformed (allowed : List (List Nat)) (hsz maxI : Nat)
    (blk : List (List Nat)) (h : parseHeaders blk = none) :
    processBlock allowed hsz maxI blk = none := by
  simp [processBlock, h]

theorem processPart_reason_cases (allowed : List (List Nat)) (hsz maxI : Nat)
    (phdrs : Headers) (contentLines : List (List Nat)) :
    (processPart allowed hsz maxI phdrs contentLines).reason = none ∨
    ∃ a b, (processPart allowed hsz maxI phdrs contentLines).reason = some (mkReason a b) := by
  simp only [processPart]
  repeat' split
  all_goals first
  | exact Or.inl rfl
  | exact Or.inr ⟨_, _, rfl⟩

theorem processPart_reason_indep (allowed : List (List Nat)) (hsz maxI : Nat)
    (phdrs : Headers) (contentLines : List (List Nat)) :
    (processPart allowed hsz maxI phdrs contentLines).reason =
    (processPart allowed hsz 0 phdrs contentLines).reason := by
  simp only [processPart]
  repeat' split
  all_goals rfl

theorem processBlock_reason_indep (allowed : List (List Nat)) (hsz maxI : Nat)
    (blk : List (List Nat)) :
    partVerdict allowed hsz maxI blk = partVerdict allowed hsz 0 blk := by
  unfold partVerdict processBlock
  rcases parseHeaders blk with _ | p
  · rfl
  · simp [processPart_reason_indep]

theorem processBlock_reason_shape (allowed : List (List Nat)) (hsz maxI : Nat)
    (blk : List (List Nat)) (r : List Nat)
    (h : partVerdict allowed hsz maxI blk = some (some r)) : ∃ a b, r = mkReason a b := by
  unfold partVerdict processBlock at h
  rcases hp : parseHeaders blk with _ | p <;> rw [hp] at h
  · simp at h
  · simp at h
    rcases processPart_reason_cases allowed hsz maxI p.fst p.snd with hc | ⟨a, b, hc⟩ <;>
      rw [hc] at h
    · simp at h
    · exact ⟨a, b, by simpa using h.symm⟩

theorem checkBlocks_cons_benign (allowed : List (List Nat)) (hsz maxI : Nat)
    (b : List (List Nat)) (rest : List (List (List Nat)))
    (h : partVerdict allowed hsz maxI b = some none) :
    (checkBlocks allowed hsz maxI (b :: rest)).fst = (checkBlocks allowed hsz maxI rest).fst := by
  unfold partVerdict at h
  rcases hp : processBlock allowed hsz maxI b with _ | pr <;> rw [hp] at h
  · simp at h
  · simp at h
    simp [checkBlocks, hp, h]

theorem checkBlocks_append_benign (allowed : List (List Nat)) (hsz maxI : Nat)
    (pre rest : List (List (List Nat)))
    (h : ∀ b ∈ pre, partVerdict allowed hsz maxI b = some none) :
    (checkBlocks allowed hsz maxI (pre ++ rest)).fst = (checkBlocks allowed hsz maxI rest).fst := by
  induction pre with
  | nil => rfl
  | cons p ps ih =>
    rw [List.cons_append, checkBlocks_cons_benign _ _ _ _ _ (h p (by simp))]
    exact ih fun b hb => h b (by simp [hb])

theorem checkBlocks_cons_violation (allowed : List (List Nat)) (hsz maxI : Nat)
    (b : List (List Nat)) (rest : List (List (List Nat))) (r : List Nat)
    (h : partVerdict allowed hsz maxI b = some (some r)) :
    (checkBlocks allowed hsz maxI (b :: rest)).fst = r := by
  unfold partVerdict at h
  rcases hp : processBlock allowed hsz maxI b with _ | pr <;> rw [hp] at h
  · simp at h
  · simp at h
    simp [checkBlocks, hp, h]

theorem checkBlocks_fst_indep (allowed : List (List Nat)) (hsz maxI : Nat)
    (blocks : List (List (List Nat))) :
    (checkBlocks allowed hsz maxI blocks).fst = (checkBlocks allowed hsz 0 blocks).fst := by
  induction blocks with
  | nil => rfl
  | cons b rest ih =>
    have hv := processBlock_reason_indep allowed hsz maxI b
    unfold partVerdict at hv
    rcases hm : processBlock allowed hsz maxI b with _ | pr <;>
      rcases h0 : processBlock allowed hsz 0 b with _ | pr0 <;>
      rw [hm, h0] at hv <;> simp at hv
    · simp [checkBlocks, hm, h0]
    · rcases hr : pr.reason with _ | r <;> rw [hr] at hv
      · simp [checkBlocks, hm, h0, hr, ← hv, ih]
      · simp [checkBlocks, hm, h0, hr, ← hv]

theorem checkBlocks_fst_cases (allowed : List (List Nat)) (hsz maxI : Nat)
    (blocks : List (List (List Nat))) :
    (checkBlocks allowed hsz maxI blocks).fst = [] ∨
    ∃ a b, (checkBlocks allowed hsz maxI blocks).fst = mkReason a b := by
  induction blocks with
  | nil => exact Or.inl rfl
  | cons b rest ih =>
    rcases hm : processBlock allowed hsz maxI b with _ | pr
    · simp [checkBlocks, hm]
    · rcases hr : pr.reason with _ | r
      · rcases ih with h | ⟨a, b2, h⟩
        · exact Or.inl (by simp [checkBlocks, hm, hr, h])
        · exact Or.inr ⟨a, b2, by simp [checkBlocks, hm, hr, h]⟩
      · have : partVerdict allowed hsz maxI b = some (some r) := by
          simp [partVerdict, hm, hr]
        obtain ⟨a, b2, hb⟩ := processBlock_reason_shape allowed hsz maxI b r this
        exact Or.inr ⟨a, b2, by simp [checkBlocks, hm, hr, hb]⟩

theorem checkMailContent_cases (lines allowed : List (List Nat))
    (hsz maxI : Nat) :
    checkMailContent lines allowed hsz maxI = [] ∨
    ∃ a b, checkMailContent lines allowed hsz maxI = mkReason a b := by
  unfold checkMailContent
  rcases parseHeaders lines with _ | ⟨hdrs, body⟩
  · exact Or.inl rfl
  · simp only
    rcases parseMediaType (getHeader hdrs (bs ("content-type"))) with _ | ⟨mt, ps⟩
    · exact Or.inl rfl
    · simp only
      split
      · exact Or.inl rfl
      · exact checkBlocks_fst_cases allowed hsz maxI _

theorem cleanString_checkMailContent (lines allowed : List (List Nat)) (hsz maxI : Nat) :
    cleanString (checkMailContent lines allowed hsz maxI) =
    checkMailContent lines allowed hsz maxI := by
  rcases checkMailContent_cases lines allowed hsz maxI with h | ⟨a, b, h⟩ <;> rw [h]
  · rfl
  · exact cleanString_mkReason a b

/-- Claim C7: at commit time, a buffered line list whose top-level header
block cannot be parsed as a mail message is accepted by checkMailContent
(empty rejection reason), never rejected. -/
theorem claim_C7 (lines allowed : List (List Nat)) (hsz maxI : Nat)
    (h : parseHeaders lines = none) :
    checkMailContent lines allowed hsz maxI = [] := by
  simp [checkMailContent, h]

theorem claim_C7_witness :
    parseHeaders [bs ("this line has no colon")] = none ∧
    checkMailContent [bs ("this line has no colon")] [] 512 0 = [] :=
  ⟨by decide, claim_C7 _ [] 512 0 (by decide)⟩

/-- Claim C8: the deep-read drain bounded by maxInspectBytes never affects
the verdict: for every message, whitelist and header window the verdict with
maxInspectBytes = 0 equals the verdict (and so the rejection reason) with
any other maxInspectBytes. -/
theorem claim_C8 (lines allowed : List (List Nat)) (hsz maxI : Nat) :
    checkMailContent lines allowed hsz 0 = checkMailContent lines allowed hsz maxI := by
  unfold checkMailContent
  rcases parseHeaders lines with _ | ⟨hdrs, body⟩
  · rfl
  · simp only
    rcases parseMediaType (getHeader hdrs (bs ("content-type"))) with _ | ⟨mt, ps⟩
    · rfl
    · simp only
      split
      · rfl
      · exact (checkBlocks_fst_indep allowed hsz maxI _).symm

/-- Claim C10: a commit for a session id that is not in the store produces
exactly one proceed filter-result reply, leaves the store untouched (no
session is created) and triggers no inspection or replay. -/
theorem claim_C10 (st : Store) (allowed : List (List Nat)) (hsz maxI : Nat)
    (sid token : String) (h : st sid = none) :
    handleCommit st allowed hsz maxI sid token =
      (st, [Reply.result sid token (bs ("proceed"))]) := by
  simp [handleCommit, h]

theorem claim_C10_witness :
    handleCommit emptyStore [] 512 0 ("sess9") ("tok9") =
      (emptyStore, [Reply.result ("sess9") ("tok9") (bs ("proceed"))]) :=
  claim_C10 emptyStore [] 512 0 ("sess9") ("tok9") rfl

/-- Claim C6: committing an existing session replays, in this exact order,
one filter-dataline reply per buffered line, then the end-of-data reply ".",
then a proceed filter-result, when the verdict is Accept; on Reject it emits
exactly one filter-result carrying the 550 policy-violation status with the
sanitized reason (the reason is a cleanString fixpoint) and replays nothing;
in both branches the session is removed and no other session changes. -/
theorem claim_C6 (st : Store) (allowed : List (List Nat)) (hsz maxI : Nat)
    (sid token : String) (msg : List (List Nat)) (h : st sid = some msg) :
    (checkMailContent msg allowed hsz maxI = [] →
      (handleCommit st allowed hsz maxI sid token).snd =
        msg.map (fun l => Reply.dataline sid token l) ++
          [Reply.dataline sid token [46], Reply.result sid token (bs ("proceed"))]) ∧
    (checkMailContent msg allowed hsz maxI ≠ [] →
      (handleCommit st allowed hsz maxI sid token).snd =
        [Reply.result sid token
          (bs ("reject|550 Policy violation: ") ++ checkMailContent msg allowed hsz maxI)] ∧
      cleanString (checkMailContent msg allowed hsz maxI) =
        checkMailContent msg allowed hsz maxI) ∧
    (handleCommit st allowed hsz maxI sid token).fst sid = none ∧
    (∀ x, x ≠ sid → (handleCommit st allowed hsz maxI sid token).fst x = st x) := by
  refine ⟨fun hr => ?_, fun hr => ?_, ?_, fun x hx => ?_⟩
  · simp [handleCommit, h, hr]
  · refine ⟨?_, cleanString_checkMailContent msg allowed hsz maxI⟩
    simp [handleCommit, h, hr]
  · rcases hr : checkMailContent msg allowed hsz maxI with _ | _ <;>
      simp [handleCommit, h, hr, handleDisconnect, delStore]
  · rcases hr : checkMailContent msg allowed hsz maxI with _ | _ <;>
      simp [handleCommit, h, hr, handleDisconnect, delStore, hx]

theorem claim_C6_witness :
    (handleCommit (setStore emptyStore ("s6") [bs ("hello")]) [] 512 0 ("s6") ("t6")).snd =
      [Reply.dataline ("s6") ("t6") (bs ("hello")), Reply.dataline ("s6") ("t6") [46],
       Reply.result ("s6") ("t6") (bs ("proceed"))] ∧
    (handleCommit (setStore emptyStore ("s6") [bs ("hello")]) [] 512 0 ("s6") ("t6")).fst ("s6") =
      none := by
  have h := claim_C6 (setStore emptyStore ("s6") [bs ("hello")]) [] 512 0 ("s6") ("t6")
    [bs ("hello")] rfl
  exact ⟨h.1 (by decide), h.2.2.1⟩

/-- The store reached from the empty store by a sequence of data-line events
(session id, token, payload). -/
def runDataLines (evs : List (String × String × List Nat)) : Store :=
  evs.foldl (fun st e => (handleDataLine st e.fst e.snd.fst e.snd.snd).fst) emptyStore

/-- No buffered session lines contain the bare end-of-data marker ".". -/
def storeNoMarker (st : Store) : Prop :=
  ∀ sid ls, st sid = some ls → [46] ∉ ls

theorem handleDataLine_noMarker (st : Store) (sid tok : String) (p : List Nat)
    (hst : storeNoMarker st) (hp : p ≠ [46, 46]) :
    storeNoMarker ((handleDataLine st sid tok p).fst) := by
  intro s2 ls2 h2
  have hmsg : [46] ∉ (st sid).getD [] := by
    rcases hs : st sid with _ | m
    · simp
    · simpa using hst sid m hs
  simp only [handleDataLine, setStore] at h2
  by_cases he : s2 = sid
  · rw [if_pos he] at h2
    have hls : ls2 = _ := (Option.some.injEq _ _).mp h2.symm
    rw [hls]
    by_cases h46 : p = [46]
    · simpa [h46] using hmsg
    · by_cases hpre : ([46, 46]).isPrefixOf p = true
      · simp only [h46, if_false, hpre, if_true]
        intro hmem
        rcases List.mem_append.mp hmem with hin | hin
        · exact hmsg hin
        · obtain ⟨t, ht⟩ := preExists hpre
          rw [ht] at hin
          simp at hin
          exact hp (by rw [ht, hin]; rfl)
      · simp only [h46, if_false, hpre]
        intro hmem
        rcases List.mem_append.mp hmem with hin | hin
        · exact hmsg hin
        · simp at hin
          exact h46 hin.symm
  · rw [if_neg he] at h2
    exact hst s2 ls2 h2

theorem foldDataLines_noMarker (evs : List (String × String × List Nat)) :
    ∀ st : Store, storeNoMarker st → (∀ e ∈ evs, e.snd.snd ≠ [46, 46]) →
    storeNoMarker
      (evs.foldl (fun s e => (handleDataLine s e.fst e.snd.fst e.snd.snd).fst) st) := by
  induction evs with
  | nil => exact fun st h _ => h
  | cons e rest ih =>
    intro st hst hev
    exact ih _ (handleDataLine_noMarker st e.fst e.snd.fst e.snd.snd hst (hev e (by simp)))
      fun x hx => hev x (by simp [hx])

/-- Counterexample to claim C5: a data-line payload ".." is stored as the
bare "." line, so after one data-line event the stored lines of a session contain
the literal end-of-data marker, refuting the claimed invariant. -/
theorem claim_C5_cex :
    ((handleDataLine emptyStore ("s0") ("t0") [46, 46]).fst) ("s0") = some [[46]] ∧
    [46] ∈ [[46]] := ⟨rfl, by decide⟩

/-- Claim C5 as amended: a payload ".." ++ X is stored as "." ++ X exactly, a
bare "." payload is consumed and never stored, and after any sequence of
data-line events none of whose payloads is exactly "..", no stored line of
any session equals the end-of-data marker (the ".." payload, which unstuffs
to the bare ".", is the sole exception to the original claim). -/
theorem claim_C5_amended :
    (∀ (st : Store) (sid tok : String) (X : List Nat),
      ((handleDataLine st sid tok (46 :: 46 :: X)).fst) sid =
        some ((st sid).getD [] ++ [46 :: X])) ∧
    (∀ (st : Store) (sid tok : String),
      ((handleDataLine st sid tok [46]).fst) sid = some ((st sid).getD [])) ∧
    (∀ evs : List (String × String × List Nat),
      (∀ e ∈ evs, e.snd.snd ≠ [46, 46]) → storeNoMarker (runDataLines evs)) := by
  refine ⟨fun st sid tok X => ?_, fun st sid tok => ?_, fun evs hev => ?_⟩
  · simp [handleDataLine, setStore, List.isPrefixOf]
  · simp [handleDataLine, setStore]
  · exact foldDataLines_noMarker evs emptyStore
      (fun sid ls h => by simp [emptyStore] at h) hev

theorem claim_C5_amended_witness :
    ((handleDataLine emptyStore ("s5") ("t5") (46 :: 46 :: bs ("x"))).fst) ("s5") =
      some ((emptyStore ("s5")).getD [] ++ [46 :: bs ("x")]) ∧
    ((handleDataLine emptyStore ("s5") ("t5") [46]).fst) ("s5") =
      some ((emptyStore ("s5")).getD []) ∧
    storeNoMarker (runDataLines [(("s5"), ("t5"), bs ("hi")), (("s5"), ("t5"), [46])]) :=
  ⟨claim_C5_amended.1 emptyStore ("s5") ("t5") (bs ("x")),
   claim_C5_amended.2.1 emptyStore ("s5") ("t5"),
   claim_C5_amended.2.2 _ (by decide)⟩

/-- Claim C2: a multipart message whose walked parts contain a first
violating part (all earlier walked parts parse and pass the policy) is
rejected with exactly the reason of that part, for every continuation of the part
list after the violating part (so no later part is inspected and no earlier
benign part contributes to the reason), and the reason is non-empty. -/
theorem claim_C2 (lines allowed : List (List Nat)) (hsz maxI : Nat) (hdrs : Headers)
    (body : List (List Nat)) (mt : List Nat) (ps : List (List Nat × List Nat))
    (pre post : List (List (List Nat))) (bad : List (List Nat)) (r : List Nat)
    (hparse : parseHeaders lines = some (hdrs, body))
    (hct : parseMediaType (getHeader hdrs (bs ("content-type"))) = some (mt, ps))
    (hmp : (bs ("multipart/")).isPrefixOf mt = true)
    (hsplit : splitBlocks ((List.lookup (bs ("boundary")) ps).getD []) body =
      pre ++ bad :: post)
    (hpre : ∀ b ∈ pre, partVerdict allowed hsz maxI b = some none)
    (hbad : partVerdict allowed hsz maxI bad = some (some r)) :
    checkMailContent lines allowed hsz maxI = r ∧ r ≠ [] := by
  constructor
  · simp only [checkMailContent, hparse, hct, hmp, Bool.not_true, Bool.false_eq_true,
      if_false, hsplit]
    rw [checkBlocks_append_benign allowed hsz maxI pre (bad :: post) hpre]
    exact checkBlocks_cons_violation allowed hsz maxI bad post r hbad
  · obtain ⟨a, b, hb⟩ := processBlock_reason_shape allowed hsz maxI bad r hbad
    rw [hb]
    exact mkReason_ne_nil a b

/-- A three-part multipart message: a valid PNG attachment, then an
executable-signature attachment, then another valid PNG. -/
def exMulti : List (List Nat) :=
  [bs ("From: x@test"),
   bs ("Content-Type: multipart/mixed; boundary=B"),
   [],
   bs ("--B"),
   bs ("Content-Disposition: attachment; filename=\"good.png\""),
   [],
   [137, 80, 78, 71, 13],
   [26],
   [],
   bs ("--B"),
   bs ("Content-Disposition: attachment; filename=\"evil.exe\""),
   [],
   bs ("MZFAKE"),
   bs ("--B"),
   bs ("Content-Disposition: attachment; filename=\"good2.png\""),
   [],
   [137, 80, 78, 71, 13],
   [26],
   [],
   bs ("--B--")]

theorem claim_C2_witness :
    checkMailContent exMulti [bs ("image/png")] 512 0 =
      mkReason (bs ("application/x-msdownload")) (bs ("evil.exe")) ∧
    mkReason (bs ("application/x-msdownload")) (bs ("evil.exe")) ≠ [] :=
  claim_C2 exMulti [bs ("image/png")] 512 0
    [(bs ("From"), bs ("x@test")), (bs ("Content-Type"), bs ("multipart/mixed; boundary=B"))]
    (exMulti.drop 3) (bs ("multipart/mixed")) [(bs ("boundary"), bs ("B"))]
    [[bs ("Content-Disposition: attachment; filename=\"good.png\""), [],
      [137, 80, 78, 71, 13], [26], []]]
    [[bs ("Content-Disposition: attachment; filename=\"good2.png\""), [],
      [137, 80, 78, 71, 13], [26], []]]
    [bs ("Content-Disposition: attachment; filename=\"evil.exe\""), [], bs ("MZFAKE")]
    (mkReason (bs ("application/x-msdownload")) (bs ("evil.exe")))
    (by decide) (by decide) (by decide) (by decide) (by decide) (by decide)

/-- A multipart message whose first part header cannot be parsed, followed
by a part that would violate the whitelist. -/
def exMalformed : List (List Nat) :=
  [bs ("From: x@test"),
   bs ("Content-Type: multipart/mixed; boundary=B"),
   [],
   bs ("--B"),
   bs ("BADHEADER-NO-COLON"),
   [],
   bs ("data"),
   bs ("--B"),
   bs ("Content-Disposition: attachment; filename=\"evil.bin\""),
   [],
   [0, 1, 66],
   bs ("--B--")]

/-- exMalformed with the malformed part removed. -/
def exMalformedCut : List (List Nat) :=
  [bs ("From: x@test"),
   bs ("Content-Type: multipart/mixed; boundary=B"),
   [],
   bs ("--B"),
   bs ("Content-Disposition: attachment; filename=\"evil.bin\""),
   [],
   [0, 1, 66],
   bs ("--B--")]

/-- Counterexample to claim C4: in the wired engine a part whose header
cannot be parsed ends the walk (main.go breaks out of the loop), so the
violating part behind it is never inspected and the message is accepted,
whereas skipping the malformed part and continuing, as the claim states,
would reject it (the same message without the malformed part is rejected). -/
theorem claim_C4_cex :
    checkMailContent exMalformed [] 512 0 = [] ∧
    checkMailContent exMalformedCut [] 512 0 =
      mkReason (bs ("application/octet-stream")) (bs ("evil.bin")) ∧
    checkMailContent exMalformed [] 512 0 ≠ checkMailContent exMalformedCut [] 512 0 := by
  refine ⟨by decide, by decide, ?_⟩
  decide

/-- Claim C4 as amended: when the walker of the wired engine meets a part whose
header cannot be parsed (after any run of benign parts), the walk stops
there: the malformed part never by itself produces a Reject, no part after
it is inspected, and the message is accepted. -/
theorem claim_C4_amended (lines allowed : List (List Nat)) (hsz maxI : Nat)
    (hdrs : Headers) (body : List (List Nat)) (mt : List Nat)
    (ps : List (List Nat × List Nat)) (pre post : List (List (List Nat)))
    (bad : List (List Nat))
    (hparse : parseHeaders lines = some (hdrs, body))
    (hct : parseMediaType (getHeader hdrs (bs ("content-type"))) = some (mt, ps))
    (hmp : (bs ("multipart/")).isPrefixOf mt = true)
    (hsplit : splitBlocks ((List.lookup (bs ("boundary")) ps).getD []) body =
      pre ++ bad :: post)
    (hpre : ∀ b ∈ pre, partVerdict allowed hsz maxI b = some none)
    (hbad : parseHeaders bad = none) :
    checkMailContent lines allowed hsz maxI = [] := by
  simp only [checkMailContent, hparse, hct, hmp, Bool.not_true, Bool.false_eq_true,
    if_false, hsplit]
  rw [checkBlocks_append_benign allowed hsz maxI pre (bad :: post) hpre]
  simp [checkBlocks, processBlock, hbad]

theorem claim_C4_amended_witness :
    checkMailContent exMalformed [] 512 0 = [] :=
  claim_C4_amended exMalformed [] 512 0
    [(bs ("From"), bs ("x@test")), (bs ("Content-Type"), bs ("multipart/mixed; boundary=B"))]
    (exMalformed.drop 3) (bs ("multipart/mixed")) [(bs ("boundary"), bs ("B"))]
    [] [[bs ("Content-Disposition: attachment; filename=\"evil.bin\""), [], [0, 1, 66]]]
    [bs ("BADHEADER-NO-COLON"), [], bs ("data")]
    (by decide) (by decide) (by decide) (by decide) (by decide) (by decide)

/-- A single-part (non-multipart) message whose body starts with binary
bytes, so its sniffed type is application/octet-stream. -/
def exSingle : List (List Nat) :=
  [bs ("From: a@test"),
   bs ("Content-Type: application/octet-stream"),
   [],
   [0, 1, 66, 73, 78]]

/-- Counterexample to claim C1: for this non-multipart message the
classified type is application/octet-stream, which is neither whitelisted
(the whitelist is empty) nor text/*, yet the commit-time engine
checkMailContent accepts it — it returns without reading the body of any
non-multipart message, instead of rejecting as the claim states. -/
theorem claim_C1_cex :
    checkMailContent exSingle [] 512 0 = [] ∧
    detectContentType ((List.intercalate [10] [[0, 1, 66, 73, 78]]).take 512) =
      bs ("application/octet-stream") ∧
    ([] : List (List Nat)).contains (toLower (bs ("application/octet-stream"))) = false ∧
    (bs ("text/")).isPrefixOf (bs ("application/octet-stream")) = false := by
  decide

/-- Claim C1 as amended: the commit-time engine (checkMailContent) accepts
every message whose top-level Content-Type is missing, unparsable or not
multipart/*, without inspecting the body; the claimed single-part
inspection is the behaviour of CheckMailPart in internal/mail, which reads up
to headerInspectSize bytes of the body, classifies them by signature, and
rejects with "Forbidden MIME type: <type>" exactly when the classified type
is neither whitelisted nor a text/* type. -/
theorem claim_C1_amended :
    (∀ (lines allowed : List (List Nat)) (hsz maxI : Nat) (hdrs : Headers)
      (body : List (List Nat)),
      parseHeaders lines = some (hdrs, body) →
      parseMediaType (getHeader hdrs (bs ("content-type"))) = none →
      checkMailContent lines allowed hsz maxI = []) ∧
    (∀ (lines allowed : List (List Nat)) (hsz maxI : Nat) (hdrs : Headers)
      (body : List (List Nat)) (mt : List Nat) (ps : List (List Nat × List Nat)),
      parseHeaders lines = some (hdrs, body) →
      parseMediaType (getHeader hdrs (bs ("content-type"))) = some (mt, ps) →
      (bs ("multipart/")).isPrefixOf mt = false →
      checkMailContent lines allowed hsz maxI = []) ∧
    (∀ (lines allowed : List (List Nat)) (hsz : Nat) (hdrs : Headers)
      (rest : List (List Nat)),
      (trimSpace (joinLines lines)).isEmpty = false →
      parseHeaders lines = some (hdrs, rest) →
      (bs ("multipart/")).isPrefixOf (effMediaType hdrs) = false →
      CheckMailPart lines allowed hsz =
        (if !allowed.contains
              (toLower (detectContentType ((List.intercalate [10] rest).take hsz))) &&
            !(bs ("text/")).isPrefixOf
              (detectContentType ((List.intercalate [10] rest).take hsz)) then
           bs ("Forbidden MIME type: ") ++
             cleanString (detectContentType ((List.intercalate [10] rest).take hsz))
         else [])) := by
  refine ⟨fun lines allowed hsz maxI hdrs body h1 h2 => ?_,
    fun lines allowed hsz maxI hdrs body mt ps h1 h2 h3 => ?_,
    fun lines allowed hsz hdrs rest h0 h1 h3 => ?_⟩
  · simp [checkMailContent, h1, h2]
  · simp [checkMailContent, h1, h2, h3]
  · simp only [CheckMailPart, h0, Bool.false_eq_true, if_false, h1, h3]
    simp

theorem claim_C1_witness :
    CheckMailPart exSingle [] 512 = bs ("Forbidden MIME type: application/octet-stream") ∧
    checkMailContent exSingle [] 512 0 = [] := by
  constructor
  · have h := claim_C1_amended.2.2 exSingle [] 512
      [(bs ("From"), bs ("a@test")), (bs ("Content-Type"), bs ("application/octet-stream"))]
      [[0, 1, 66, 73, 78]] (by decide) (by decide) (by decide)
    rw [h]
    decide
  · exact claim_C1_amended.2.1 exSingle [] 512 0
      [(bs ("From"), bs ("a@test")), (bs ("Content-Type"), bs ("application/octet-stream"))]
      [[0, 1, 66, 73, 78]] (bs ("application/octet-stream")) []
      (by decide) (by decide) (by decide)

/-- A multipart message with one base64-encoded attachment whose decoded
bytes are exactly the PNG signature ("iVBORw0KGgo=" decodes to
89 50 4E 47 0D 0A 1A 0A). -/
def exB64Png : List (List Nat) :=
  [bs ("From: a@test"),
   bs ("Content-Type: multipart/mixed; boundary=B"),
   [],
   bs ("--B"),
   bs ("Content-Disposition: attachment; filename=\"pic.png\""),
   bs ("Content-Transfer-Encoding: base64"),
   [],
   bs ("iVBORw0KGgo="),
   bs ("--B--")]

/-- A multipart message with one base64-encoded part whose decoded bytes
("AAECAwQF" decodes to 00 01 02 03 04 05) match no known signature. -/
def exB64Bin : List (List Nat) :=
  [bs ("From: a@test"),
   bs ("Content-Type: multipart/mixed; boundary=B"),
   [],
   bs ("--B"),
   bs ("Content-Transfer-Encoding: base64"),
   [],
   bs ("AAECAwQF"),
   bs ("--B--")]

/-- Claim C3: the transfer decoder is selected from the declared
Content-Transfer-Encoding compared case-insensitively after trimming
whitespace; base64 and quoted-printable select the corresponding streaming
decoders and any other name falls back to identity; classification runs on
the decoded bytes, so a base64-encoded PNG signature is classified image/png
and accepted under a whitelist containing image/png, while a base64 part
whose decoded bytes match no whitelisted signature is rejected. -/
theorem claim_C3 :
    (∀ (e e2 c : List Nat), toLower (trimSpace e) = toLower (trimSpace e2) →
      wrapEncoding e c = wrapEncoding e2 c) ∧
    (∀ (e c : List Nat), toLower (trimSpace e) ≠ bs ("base64") →
      toLower (trimSpace e) ≠ bs ("quoted-printable") → wrapEncoding e c = c) ∧
    (∀ c : List Nat, wrapEncoding (bs ("base64")) c = base64Decode c) ∧
    (∀ c : List Nat, wrapEncoding (bs ("quoted-printable")) c = qpDecode c) ∧
    checkMailContent exB64Png [bs ("image/png")] 512 0 = [] ∧
    checkMailContent exB64Bin [bs ("image/png")] 512 0 =
      mkReason (bs ("application/octet-stream")) [] := by
  refine ⟨fun e e2 c h => ?_, fun e c h1 h2 => ?_, fun c => ?_, fun c => ?_,
    by decide, by decide⟩
  · unfold wrapEncoding
    rw [h]
  · unfold wrapEncoding
    rw [if_neg h1, if_neg h2]
  · unfold wrapEncoding
    rw [if_pos (by decide : toLower (trimSpace (bs ("base64"))) = bs ("base64"))]
  · unfold wrapEncoding
    rw [if_neg (by decide : ¬toLower (trimSpace (bs ("quoted-printable"))) = bs ("base64")),
      if_pos (by decide :
        toLower (trimSpace (bs ("quoted-printable"))) = bs ("quoted-printable"))]

theorem claim_C3_witness :
    wrapEncoding (bs (" BASE64 ")) (bs ("QQ==")) = wrapEncoding (bs ("base64")) (bs ("QQ==")) ∧
    wrapEncoding (bs ("7bit")) (bs ("payload")) = bs ("payload") :=
  ⟨claim_C3.1 (bs (" BASE64 ")) (bs ("base64")) (bs ("QQ==")) (by decide),
   claim_C3.2.1 (bs ("7bit")) (bs ("payload")) (by decide) (by decide)⟩
